import Mathlib

/-!
Verification development for the Conversation Relay Engine of `src/AI.py`
(a Telegram math/science bot relaying messages to the Gemini API).

The Python source is shallowly embedded below:
* `escape_markdown_v2` — the output sanitizer (AI.py lines 37–42);
* `get_chat_history` / `save_chat_history` — the Firestore history adapter
  (lines 44–66), modelled over explicit read/write outcomes;
* `generate_response` — the relay with retry/backoff (lines 68–125), modelled
  as a pure function of the prompt, optional image data, the store-read
  outcome, and an environment function assigning each attempt index its
  upstream outcome (HTTP error status, transport error, or a parsed body).

Effects are made observable in a `RelayResult`: the reply value, the number
of upstream calls performed, the list of sleeps in order, and the history
passed to `save_chat_history` (if any).
-/

namespace AIMath

/-- `max_retries = 3` from AI.py line 95. -/
def max_retries : Nat := 3

/-- Apology returned from the `httpx.HTTPStatusError` handler (line 119). -/
def httpErrorApology : String := "I'm sorry, I encountered an error. Please try again later."

/-- Apology returned from the generic `except Exception` handler (line 125). -/
def unexpectedErrorApology : String := "I'm sorry, I couldn't process your request."

/-- A content part of a turn: a `{"text": ...}` part (whose value may be
`null`, since the code stores `candidate...get("text")` verbatim) or an
`{"inlineData": {...}}` part. -/
inductive ContentPart
  | text (s : Option String)
  | inlineData (mimeType : String) (data : String)
deriving DecidableEq, Repr

/-- One conversation turn `{"role": ..., "parts": [...]}`. -/
structure Turn where
  role : String
  parts : List ContentPart
deriving DecidableEq, Repr

/-! ### Output sanitizer (AI.py lines 37–42) -/

/-- `escape_chars = r'_*[]()~`>#+-=|{}.!'` (line 41). -/
def escape_chars : String := "_*[]()~`>#+-=|\x7b\x7d.!"

/-- One step of the comprehension on line 42: `f'\\{char}' if char in
escape_chars else char`. -/
def escapeChar (char : Char) : List Char :=
  if char ∈ escape_chars.toList then ['\\', char] else [char]

/-- List-level form of the sanitizer. -/
def escapeList (l : List Char) : List Char :=
  (l.map escapeChar).flatten

/-- `escape_markdown_v2` (lines 37–42): prefix every reserved character with
a backslash. -/
def escape_markdown_v2 (text : String) : String :=
  String.mk (escapeList text.toList)

/-! ### History store adapter (AI.py lines 44–66) -/

/-- The Firestore document for a user; the `history` field may be absent
(`doc.to_dict().get('history', [])`, line 52). -/
structure StoredDoc where
  history : Option (List Turn)
deriving DecidableEq, Repr

/-- Outcome of the Firestore read in `get_chat_history`: an exception, a
non-existent document, or a found document. -/
inductive ReadOutcome
  | err
  | missing
  | found (doc : StoredDoc)
deriving DecidableEq, Repr

/-- `get_chat_history` (lines 44–56): returns the stored history, `[]` when
the document does not exist (line 53), and `[]` when the read raises (the
`except` clause, lines 54–56, logs and returns `[]`). Total by construction:
it never propagates an error to the caller. -/
def get_chat_history : ReadOutcome → List Turn
  | .err => []
  | .missing => []
  | .found doc => doc.history.getD []

/-- Outcome of the Firestore write in `save_chat_history`. -/
inductive WriteOutcome
  | ok
  | err
deriving DecidableEq, Repr

/-- `save_chat_history` (lines 58–66) modelled by its effect on the stored
history: the `set(..., merge=True)` replaces the `history` field on success;
on failure the exception is caught and logged (lines 65–66), leaving the
previous contents. In both cases the function returns normally. -/
def save_chat_history (w : WriteOutcome) (prev : List Turn) (history : List Turn) : List Turn :=
  match w with
  | .ok => history
  | .err => prev

/-! ### Upstream response shape (AI.py lines 103–105) -/

/-- One JSON part of a candidate's content; the `"text"` key may be absent
(`.get("text")`, line 105, yields `None` then). -/
structure PartObj where
  text : Option String
deriving DecidableEq, Repr

/-- The `"content"` object of a candidate, holding its `"parts"` list. -/
structure Content where
  parts : List PartObj
deriving DecidableEq, Repr

/-- One element of the `"candidates"` list; the `"content"` key may be
absent (`candidate.get("content", {})`, line 105). -/
structure Candidate where
  content : Option Content
deriving DecidableEq, Repr

/-- One grounding attribution carried by the response metadata; either field
may be absent. The relay code never reads these. -/
structure Attribution where
  title : Option String
  url : Option String
deriving DecidableEq, Repr

/-- A parsed 2xx response body: the `"candidates"` list (`.get("candidates",
[])`, line 104) plus any grounding attributions the body carries. -/
structure GeminiBody where
  candidates : List Candidate
  groundingAttributions : List Attribution
deriving DecidableEq, Repr

/-- The extraction on lines 104–105:
`result.get("candidates", [])[0]` then
`candidate.get("content", {}).get("parts", [])[0].get("text")`.
`none` means an `IndexError` was raised (empty candidates or empty parts),
which the surrounding `except Exception` catches; `some t` is the extracted
text value (itself possibly `null`). -/
def extractText (r : GeminiBody) : Option (Option String) :=
  match r.candidates with
  | [] => none
  | candidate :: _ =>
    match (match candidate.content with
           | some content => content.parts
           | none => []) with
    | [] => none
    | p :: _ => some p.text

/-! ### Request construction (AI.py lines 77–92) -/

/-- Append the inline-image part to the parts of the last element of
`contents` (`contents[-1]["parts"].append(...)`, line 79). -/
def addInlineToLast (contents : List Turn) (d : String) : List Turn :=
  match contents with
  | [] => []
  | [t] => [{ t with parts := t.parts ++ [ContentPart.inlineData "image/jpeg" d] }]
  | t :: rest => t :: addInlineToLast rest d

/-- Lines 77–79: `contents = history + [{"role": "user", "parts": [{"text":
prompt}]}]`, then, if image data is present, the inline-data part is appended
to the last turn's parts. -/
def buildContents (history : List Turn) (prompt : String) (imageData : Option String) : List Turn :=
  let contents := history ++ [⟨"user", [ContentPart.text (some prompt)]⟩]
  match imageData with
  | some d => addInlineToLast contents d
  | none => contents

/-- The system directive string (lines 85–89). -/
def system_instruction : String :=
  "You are a world-class math and science expert. You specialize in explaining complex concepts and solving equations. Respond directly and clearly to the user's question. If the user asks a question not related to math or science, politely decline and state you can only help with math and science."

/-- The request payload (lines 82–90): contents, the `google_search` tool
flag, and the system instruction. -/
structure Payload where
  contents : List Turn
  google_search_tool : Bool
  systemInstruction : String
deriving DecidableEq, Repr

/-- Line 34. -/
def API_URL_TEXT : String :=
  "https://generativelanguage.googleapis.com/v1beta/models/gemini-2.5-flash-preview-05-20:generateContent"

/-- Line 35. -/
def API_URL_IMAGE : String :=
  "https://generativelanguage.googleapis.com/v1beta/models/gemini-2.5-flash-image-preview:generateContent"

/-! ### The retry loop (AI.py lines 94–125) -/

/-- What the environment does on one upstream attempt:
* `httpStatus code` — the POST completes with an error status, so
  `response.raise_for_status()` (line 100) raises `httpx.HTTPStatusError`;
* `requestError` — some other exception escapes the request/JSON-decode
  (network or transport failure, timeout, malformed JSON), landing in the
  generic `except Exception` handler;
* `ok body` — a 2xx response whose JSON body parsed to `body`. -/
inductive AttemptOutcome
  | httpStatus (code : Nat)
  | requestError
  | ok (body : GeminiBody)
deriving DecidableEq, Repr

/-- The value `generate_response` returns: the extracted answer text on
success (line 112; possibly `null`), one of the fixed error messages
(lines 119 and 125), or `None` from falling off the loop (unreachable when
`max_retries > 0`). -/
inductive Reply
  | answer (t : Option String)
  | message (s : String)
  | noReply
deriving DecidableEq, Repr

/-- Observable outcome of one run of the retry loop: the returned value, the
number of upstream POSTs performed, the sleeps performed in order, and the
history passed to `save_chat_history` (if the success path was reached). -/
structure RelayResult where
  reply : Reply
  calls : Nat
  waits : List Nat
  saved : Option (List Turn)
deriving DecidableEq, Repr

/-- A retried iteration as observed from the outside: the sleep of
`2 ** attempt` (line 117 / 123) is recorded in front of the rest of the
run, and the current POST adds one to the call count. -/
def retryStep (attempt : Nat) (rest : RelayResult) : RelayResult :=
  ⟨rest.reply, rest.calls + 1, 2 ^ attempt :: rest.waits, rest.saved⟩

/-- The `for attempt in range(max_retries)` loop (lines 96–125).
`remaining` is the number of loop iterations left and `attempt` the current
index; entry is at `remaining = max_retries`, `attempt = 0`. Per iteration:
* `.ok body` with extractable text: append the user turn and the model turn
  to the history, save it, and return the text (lines 103–112);
* `.ok body` whose extraction raises (no candidate / no part): generic
  handler — sleep `2 ** attempt` and retry if `attempt < max_retries - 1`,
  else return the generic apology (lines 120–125);
* `.httpStatus code`: the `HTTPStatusError` handler — sleep and retry only
  when `code == 429` and `attempt < max_retries - 1`, else return the HTTP
  apology (lines 114–119);
* `.requestError`: the generic handler, as above. -/
def relayLoopAux (prompt : String) (history : List Turn)
    (outcomes : Nat → AttemptOutcome) : Nat → Nat → RelayResult
  | 0, _ => ⟨.noReply, 0, [], none⟩
  | remaining + 1, attempt =>
    let retry : RelayResult :=
      retryStep attempt (relayLoopAux prompt history outcomes remaining (attempt + 1))
    match outcomes attempt with
    | .httpStatus code =>
      if code = 429 ∧ attempt < max_retries - 1 then retry
      else ⟨.message httpErrorApology, 1, [], none⟩
    | .requestError =>
      if attempt < max_retries - 1 then retry
      else ⟨.message unexpectedErrorApology, 1, [], none⟩
    | .ok body =>
      match extractText body with
      | some t =>
        let newHistory := history ++
          [⟨"user", [ContentPart.text (some prompt)]⟩, ⟨"model", [ContentPart.text t]⟩]
        ⟨.answer t, 1, [], some newHistory⟩
      | none =>
        if attempt < max_retries - 1 then retry
        else ⟨.message unexpectedErrorApology, 1, [], none⟩

/-- One invocation of `generate_response` together with the request it
builds. -/
structure RelayRun where
  payload : Payload
  api_url : String
  result : RelayResult
deriving DecidableEq, Repr

/-- `generate_response` (lines 68–125): load the history from the store,
build the payload (image variant when image data is present, line 92), and
run the retry loop from attempt 0. -/
def generate_response (prompt : String) (imageData : Option String)
    (store : ReadOutcome) (outcomes : Nat → AttemptOutcome) : RelayRun :=
  let history := get_chat_history store
  { payload := ⟨buildContents history prompt imageData, true, system_instruction⟩
  , api_url := match imageData with
      | some _ => API_URL_IMAGE
      | none => API_URL_TEXT
  , result := relayLoopAux prompt history outcomes max_retries 0 }

/-- A relay together with its effect on the stored history: if the success
path handed a history to `save_chat_history`, the store ends up holding it
when the write succeeds and keeps its previous contents when the write
fails; either way the reply already computed is returned unchanged. -/
def relayWithStore (prompt : String) (imageData : Option String)
    (store : ReadOutcome) (prev : List Turn) (w : WriteOutcome)
    (outcomes : Nat → AttemptOutcome) : Reply × List Turn :=
  let run := generate_response prompt imageData store outcomes
  match run.result.saved with
  | some h => (run.result.reply, save_chat_history w prev h)
  | none => (run.result.reply, prev)

/-! ### Spec-described citation formatting (§4.3 of the spec)

`src/AI.py` contains no citation handling: lines 103–112 read only
`candidates[0]`'s first text part. The following definition renders the
behaviour the spec describes, for comparison against the code. -/

/-- The `{title, url}` pairs the spec says are collected: every attribution
with both fields present, in response order. -/
def specCitationPairs (attrs : List Attribution) : List (String × String) :=
  attrs.filterMap (fun a =>
    match a.title, a.url with
    | some t, some u => some (t, u)
    | _, _ => none)

/-- The answer text with the trailing "Sources" block the spec describes,
omitted when the collected pair list is empty. -/
def specAnswerWithSources (answer : String) (attrs : List Attribution) : String :=
  match specCitationPairs attrs with
  | [] => answer
  | pairs =>
    answer ++ "\n\nSources:\n" ++
      String.intercalate "\n" (pairs.map (fun p => p.1 ++ " - " ++ p.2))

/-- A concrete successful body carrying grounding metadata: one candidate
whose text is "ans", and one attribution with both title and url present. -/
def citedBody : GeminiBody :=
  ⟨[⟨some ⟨[⟨some "ans"⟩]⟩⟩], [⟨some "T", some "U"⟩]⟩

/-! ### Session state machine (§4.4 of the spec)

Modelled from the spec: the per-owner session state machine — the
mode-selection triggers, the `AwaitingPrompt(purpose)` continuation and its
return to `Idle` — is not present in `src/AI.py` (its `main`, lines 173–189,
registers only the plain text/photo relay handlers); the component lives in
repository code outside `src/`. The definitions below follow §4.4 of the
spec verbatim. -/

/-- Modelled from the spec: the two prompt purposes of §4.4. -/
inductive Purpose
  | textGeneration
  | imageGeneration
deriving DecidableEq, Repr

/-- Modelled from the spec: the per-owner session mode, `Idle` or
`AwaitingPrompt(purpose)`. -/
inductive SessionMode
  | idle
  | awaitingPrompt (p : Purpose)
deriving DecidableEq, Repr

/-- Modelled from the spec: one inbound event from the owner — a recognized
mode-selection trigger for a purpose, or a plain text event. -/
inductive SessionEvent
  | select (p : Purpose)
  | textEvent (s : String)
deriving DecidableEq, Repr

/-- Modelled from the spec: the reaction the machine chooses for an event —
acknowledge with "send me a prompt" (no upstream call), run the relay for a
chosen purpose on the consumed prompt, or run the plain single-turn relay. -/
inductive SessionAction
  | ack
  | relayFor (p : Purpose) (prompt : String)
  | plainRelay (s : String)
deriving DecidableEq, Repr

/-- Whether an action performs an upstream call: only the acknowledgment
does not. -/
def actionCallsUpstream : SessionAction → Bool
  | .ack => false
  | .relayFor _ _ => true
  | .plainRelay _ => true

/-- Modelled from the spec: whether the relay triggered by the event
succeeded or failed; §4.4 requires the post-event mode not to depend on it. -/
inductive RelayVerdict
  | success
  | failure
deriving DecidableEq, Repr

/-- Modelled from the spec: the transition table of §4.4. From `Idle`, a
mode-selection trigger moves to `AwaitingPrompt(p)` with the acknowledgment;
the next text event while `AwaitingPrompt(p)` is consumed as the prompt,
triggers the relay for `p`, and returns the mode to `Idle` regardless of the
relay's verdict; a plain text event while `Idle` takes the plain single-turn
relay path; a repeated trigger while awaiting re-arms the awaited purpose. -/
def sessionStep (mode : SessionMode) (ev : SessionEvent) (verdict : RelayVerdict) :
    SessionMode × SessionAction :=
  match mode, ev with
  | .idle, .select p => (.awaitingPrompt p, .ack)
  | .idle, .textEvent s => (.idle, .plainRelay s)
  | .awaitingPrompt p, .textEvent s =>
    match verdict with
    | .success => (.idle, .relayFor p s)
    | .failure => (.idle, .relayFor p s)
  | .awaitingPrompt _, .select q => (.awaitingPrompt q, .ack)

/-! ### Helper lemmas about the retry loop -/

/-- The loop performs at most one upstream call per remaining iteration. -/
theorem relayLoopAux_calls_le (prompt : String) (history : List Turn)
    (outcomes : Nat → AttemptOutcome) :
    ∀ remaining attempt, (relayLoopAux prompt history outcomes remaining attempt).calls ≤ remaining := by
  intro remaining
  induction remaining with
  | zero => intro attempt; simp [relayLoopAux]
  | succ r ih =>
    intro attempt
    simp only [relayLoopAux]
    cases h : outcomes attempt with
    | httpStatus code =>
      by_cases hc : code = 429 ∧ attempt < max_retries - 1
      · simpa [retryStep, hc] using ih (attempt + 1)
      · simp [retryStep, hc]
    | requestError =>
      by_cases hc : attempt < max_retries - 1
      · simpa [retryStep, hc] using ih (attempt + 1)
      · simp [retryStep, hc]
    | ok body =>
      cases he : extractText body with
      | some t => simp [he]
      | none =>
        by_cases hc : attempt < max_retries - 1
        · simpa [retryStep, he, hc] using ih (attempt + 1)
        · simp [retryStep, he, hc]

/-- The `i`-th sleep performed by the loop started at index `attempt` lasts
`2 ^ (attempt + i)` time units. -/
theorem relayLoopAux_waits (prompt : String) (history : List Turn)
    (outcomes : Nat → AttemptOutcome) :
    ∀ remaining attempt i w,
      (relayLoopAux prompt history outcomes remaining attempt).waits[i]? = some w →
      w = 2 ^ (attempt + i) := by
  intro remaining
  induction remaining with
  | zero => intro attempt i w h; simp [relayLoopAux] at h
  | succ r ih =>
    intro attempt i w
    have step : (2 ^ attempt ::
        (relayLoopAux prompt history outcomes r (attempt + 1)).waits)[i]? = some w →
        w = 2 ^ (attempt + i) := by
      cases i with
      | zero => intro hj; simpa using hj.symm
      | succ k =>
        intro hj
        have hk : (relayLoopAux prompt history outcomes r (attempt + 1)).waits[k]? = some w := by
          simpa using hj
        have := ih (attempt + 1) k w hk
        simpa [Nat.add_assoc, Nat.add_comm 1 k] using this
    simp only [relayLoopAux]
    cases h : outcomes attempt with
    | httpStatus code =>
      by_cases hc : code = 429 ∧ attempt < max_retries - 1
      · simpa [retryStep, hc] using step
      · simp [retryStep, hc]
    | requestError =>
      by_cases hc : attempt < max_retries - 1
      · simpa [retryStep, hc] using step
      · simp [retryStep, hc]
    | ok body =>
      cases he : extractText body with
      | some t => simp [he]
      | none =>
        by_cases hc : attempt < max_retries - 1
        · simpa [retryStep, he, hc] using step
        · simp [retryStep, he, hc]

/-- Whenever the loop returns an answer, the history it handed to
`save_chat_history` is the input history with the user turn and the model
turn appended, in that order. -/
theorem relayLoopAux_answer_saved (prompt : String) (history : List Turn)
    (outcomes : Nat → AttemptOutcome) :
    ∀ remaining attempt (t : Option String),
      (relayLoopAux prompt history outcomes remaining attempt).reply = .answer t →
      (relayLoopAux prompt history outcomes remaining attempt).saved =
        some (history ++
          [⟨"user", [ContentPart.text (some prompt)]⟩, ⟨"model", [ContentPart.text t]⟩]) := by
  intro remaining
  induction remaining with
  | zero => intro attempt t h; simp [relayLoopAux] at h
  | succ r ih =>
    intro attempt t
    simp only [relayLoopAux]
    cases h : outcomes attempt with
    | httpStatus code =>
      by_cases hc : code = 429 ∧ attempt < max_retries - 1
      · simpa [retryStep, hc] using ih (attempt + 1) t
      · simp [retryStep, hc]
    | requestError =>
      by_cases hc : attempt < max_retries - 1
      · simpa [retryStep, hc] using ih (attempt + 1) t
      · simp [retryStep, hc]
    | ok body =>
      cases he : extractText body with
      | some t' =>
        intro hr
        have : t' = t := by simpa [he] using hr
        simp [he, this]
      | none =>
        by_cases hc : attempt < max_retries - 1
        · simpa [retryStep, he, hc] using ih (attempt + 1) t
        · simp [retryStep, he, hc]

/-- Whenever the loop returns an error message, no history was saved and the
message is one of the two fixed apologies. -/
theorem relayLoopAux_message_saved (prompt : String) (history : List Turn)
    (outcomes : Nat → AttemptOutcome) :
    ∀ remaining attempt (m : String),
      (relayLoopAux prompt history outcomes remaining attempt).reply = .message m →
      (relayLoopAux prompt history outcomes remaining attempt).saved = none ∧
        (m = httpErrorApology ∨ m = unexpectedErrorApology) := by
  intro remaining
  induction remaining with
  | zero => intro attempt m h; simp [relayLoopAux] at h
  | succ r ih =>
    intro attempt m
    simp only [relayLoopAux]
    cases h : outcomes attempt with
    | httpStatus code =>
      by_cases hc : code = 429 ∧ attempt < max_retries - 1
      · simpa [retryStep, hc] using ih (attempt + 1) m
      · intro hm
        have : httpErrorApology = m := by simpa [retryStep, hc] using hm
        simp [hc, this.symm]
    | requestError =>
      by_cases hc : attempt < max_retries - 1
      · simpa [retryStep, hc] using ih (attempt + 1) m
      · intro hm
        have : unexpectedErrorApology = m := by simpa [retryStep, hc] using hm
        simp [hc, this.symm]
    | ok body =>
      cases he : extractText body with
      | some t' => simp [he]
      | none =>
        by_cases hc : attempt < max_retries - 1
        · simpa [retryStep, he, hc] using ih (attempt + 1) m
        · intro hm
          have : unexpectedErrorApology = m := by simpa [retryStep, he, hc] using hm
          simp [he, hc, this.symm]

/-! ### Helper lemmas about the sanitizer -/

/-- The escape marker itself is not a reserved character of line 41. -/
theorem backslash_not_reserved : '\\' ∉ escape_chars.toList := by decide

theorem escapeList_nil : escapeList [] = [] := rfl

theorem escapeList_cons (c : Char) (l : List Char) :
    escapeList (c :: l) = escapeChar c ++ escapeList l := by
  simp [escapeList]

/-- Exactly one escape marker is inserted per reserved character: the output
length is the input length plus the number of reserved characters. -/
theorem escapeList_length (l : List Char) :
    (escapeList l).length = l.length + (l.filter (fun c => c ∈ escape_chars.toList)).length := by
  induction l with
  | nil => simp [escapeList]
  | cons c l ih =>
    rw [escapeList_cons, List.length_append, ih]
    unfold escapeChar
    by_cases hc : c ∈ escape_chars.toList
    · rw [if_pos hc, List.filter_cons_of_pos (by simpa using hc)]
      simp
      omega
    · rw [if_neg hc, List.filter_cons_of_neg (by simpa using hc)]
      simp
      omega

/-- Every character survives sanitization. -/
theorem mem_escapeList (l : List Char) (c : Char) (h : c ∈ l) : c ∈ escapeList l := by
  induction l with
  | nil => simp at h
  | cons d l ih =>
    rcases List.mem_cons.mp h with rfl | h
    · rw [escapeList_cons]
      refine List.mem_append_left _ ?_
      unfold escapeChar
      split <;> simp
    · rw [escapeList_cons]
      exact List.mem_append_right _ (ih h)

/-- In sanitized output, every reserved character sits immediately after a
backslash. -/
theorem escapeList_preceded (l : List Char) :
    ∀ i c, (escapeList l)[i]? = some c → c ∈ escape_chars.toList →
      i ≠ 0 ∧ (escapeList l)[i - 1]? = some '\\' := by
  induction l with
  | nil => intro i c h _; simp [escapeList] at h
  | cons d l ih =>
    intro i c h hc
    by_cases hd : d ∈ escape_chars.toList
    · rw [escapeList_cons] at h ⊢
      unfold escapeChar at h ⊢
      rw [if_pos hd] at h ⊢
      match i with
      | 0 =>
        exfalso
        have : '\\' = c := by simpa using h
        exact backslash_not_reserved (this ▸ hc)
      | 1 => exact ⟨by decide, rfl⟩
      | Nat.succ (Nat.succ k) =>
        have hk : (escapeList l)[k]? = some c := by simpa using h
        obtain ⟨hk0, hkpre⟩ := ih k c hk hc
        obtain ⟨j, rfl⟩ : ∃ j, k = j + 1 := ⟨k - 1, by omega⟩
        refine ⟨by omega, ?_⟩
        simpa using hkpre
    · rw [escapeList_cons] at h ⊢
      unfold escapeChar at h ⊢
      rw [if_neg hd] at h ⊢
      match i with
      | 0 =>
        exfalso
        have : d = c := by simpa using h
        exact hd (this ▸ hc)
      | Nat.succ k =>
        have hk : (escapeList l)[k]? = some c := by simpa using h
        obtain ⟨hk0, hkpre⟩ := ih k c hk hc
        obtain ⟨j, rfl⟩ : ∃ j, k = j + 1 := ⟨k - 1, by omega⟩
        refine ⟨by omega, ?_⟩
        simpa using hkpre

theorem escape_markdown_v2_toList (s : String) :
    (escape_markdown_v2 s).toList = escapeList s.toList := rfl

/-- Sanitizing strictly lengthens any text that contains a reserved
character, so sanitizing twice differs from sanitizing once. -/
theorem escapeList_not_idempotent (l : List Char) (c : Char) (hcl : c ∈ l)
    (hcR : c ∈ escape_chars.toList) : escapeList (escapeList l) ≠ escapeList l := by
  intro heq
  have hlen := congrArg List.length heq
  rw [escapeList_length] at hlen
  have hmem : c ∈ escapeList l := mem_escapeList l c hcl
  have hfil : c ∈ (escapeList l).filter (fun c => c ∈ escape_chars.toList) :=
    List.mem_filter.mpr ⟨hmem, by simpa using hcR⟩
  have hpos : 0 < ((escapeList l).filter (fun c => c ∈ escape_chars.toList)).length :=
    List.length_pos.mpr (List.ne_nil_of_mem hfil)
  omega

/-! ### Helper lemmas about request construction and the loop steps -/

/-- Appending the inline part to the last element of `history ++ [t]`
touches exactly `t`. -/
theorem addInlineToLast_append_singleton (l : List Turn) (t : Turn) (d : String) :
    addInlineToLast (l ++ [t]) d =
      l ++ [{ t with parts := t.parts ++ [ContentPart.inlineData "image/jpeg" d] }] := by
  induction l with
  | nil => simp [addInlineToLast]
  | cons a l ih =>
    cases l with
    | nil => simp [addInlineToLast]
    | cons b l' => simpa [addInlineToLast] using ih

/-- A non-429 HTTP status error is terminal at once: no sleep, no further
call, the HTTP apology, nothing saved — whatever the attempt index. -/
theorem relayLoopAux_step_http_terminal (prompt : String) (history : List Turn)
    (outcomes : Nat → AttemptOutcome) (remaining attempt code : Nat)
    (h : outcomes attempt = .httpStatus code)
    (hc : ¬(code = 429 ∧ attempt < max_retries - 1)) :
    relayLoopAux prompt history outcomes (remaining + 1) attempt =
      ⟨.message httpErrorApology, 1, [], none⟩ := by
  simp [relayLoopAux, h, hc]

/-- HTTP 429 with attempts remaining: sleep `2 ^ attempt` and run the rest
of the loop. -/
theorem relayLoopAux_step_http_retry (prompt : String) (history : List Turn)
    (outcomes : Nat → AttemptOutcome) (remaining attempt : Nat)
    (h : outcomes attempt = .httpStatus 429) (hc : attempt < max_retries - 1) :
    relayLoopAux prompt history outcomes (remaining + 1) attempt =
      retryStep attempt (relayLoopAux prompt history outcomes remaining (attempt + 1)) := by
  simp [relayLoopAux, h, hc]

/-- A transport-level failure with attempts remaining: sleep `2 ^ attempt`
and run the rest of the loop. -/
theorem relayLoopAux_step_requestError_retry (prompt : String) (history : List Turn)
    (outcomes : Nat → AttemptOutcome) (remaining attempt : Nat)
    (h : outcomes attempt = .requestError) (hc : attempt < max_retries - 1) :
    relayLoopAux prompt history outcomes (remaining + 1) attempt =
      retryStep attempt (relayLoopAux prompt history outcomes remaining (attempt + 1)) := by
  simp [relayLoopAux, h, hc]

/-- A transport-level failure on the last attempt: the generic apology. -/
theorem relayLoopAux_step_requestError_terminal (prompt : String) (history : List Turn)
    (outcomes : Nat → AttemptOutcome) (remaining attempt : Nat)
    (h : outcomes attempt = .requestError) (hc : ¬ attempt < max_retries - 1) :
    relayLoopAux prompt history outcomes (remaining + 1) attempt =
      ⟨.message unexpectedErrorApology, 1, [], none⟩ := by
  simp [relayLoopAux, h, hc]

/-- A 2xx response whose extraction raises, with attempts remaining: sleep
`2 ^ attempt` and run the rest of the loop. -/
theorem relayLoopAux_step_ok_none_retry (prompt : String) (history : List Turn)
    (outcomes : Nat → AttemptOutcome) (remaining attempt : Nat) (body : GeminiBody)
    (h : outcomes attempt = .ok body) (he : extractText body = none)
    (hc : attempt < max_retries - 1) :
    relayLoopAux prompt history outcomes (remaining + 1) attempt =
      retryStep attempt (relayLoopAux prompt history outcomes remaining (attempt + 1)) := by
  simp [relayLoopAux, h, he, hc]

/-- A 2xx response whose extraction raises, on the last attempt: the generic
apology. -/
theorem relayLoopAux_step_ok_none_terminal (prompt : String) (history : List Turn)
    (outcomes : Nat → AttemptOutcome) (remaining attempt : Nat) (body : GeminiBody)
    (h : outcomes attempt = .ok body) (he : extractText body = none)
    (hc : ¬ attempt < max_retries - 1) :
    relayLoopAux prompt history outcomes (remaining + 1) attempt =
      ⟨.message unexpectedErrorApology, 1, [], none⟩ := by
  simp [relayLoopAux, h, he, hc]

/-- A 2xx response with an extractable text: the success path of lines
103–112. -/
theorem relayLoopAux_step_ok_some (prompt : String) (history : List Turn)
    (outcomes : Nat → AttemptOutcome) (remaining attempt : Nat) (body : GeminiBody)
    (t : Option String) (h : outcomes attempt = .ok body)
    (he : extractText body = some t) :
    relayLoopAux prompt history outcomes (remaining + 1) attempt =
      ⟨.answer t, 1, [], some (history ++
        [⟨"user", [ContentPart.text (some prompt)]⟩, ⟨"model", [ContentPart.text t]⟩])⟩ := by
  simp [relayLoopAux, h, he]

/-! ### The claims -/

/-- **C1.** In every relay invocation — in particular every one whose
upstream calls fail retryably — the number of upstream call attempts never
exceeds `max_retries = 3` (1 initial + 2 retries), and the `k`-th wait
(0-indexed: the sleep of `2 ** attempt` performed during failing attempt
`k`, before attempt `k + 1` is issued) equals `2 ^ k` time units — pure
exponential backoff with no jitter and no cap beyond the retry budget. -/
theorem claim_c1_retry_budget_and_backoff (prompt : String) (imageData : Option String)
    (store : ReadOutcome) (outcomes : Nat → AttemptOutcome) :
    (generate_response prompt imageData store outcomes).result.calls ≤ max_retries ∧
    ∀ k w, (generate_response prompt imageData store outcomes).result.waits[k]? = some w →
      w = 2 ^ k := by
  constructor
  · exact relayLoopAux_calls_le prompt (get_chat_history store) outcomes max_retries 0
  · intro k w h
    have := relayLoopAux_waits prompt (get_chat_history store) outcomes max_retries 0 k w h
    simpa using this

/-- Witness for C1: a run whose every attempt fails with a transport error
makes at most `max_retries` calls, and its first wait is `2 ^ 0`. -/
theorem claim_c1_retry_budget_and_backoff_witness :
    (generate_response "2+2?" none .missing (fun _ => .requestError)).result.calls ≤ max_retries ∧
    (generate_response "2+2?" none .missing (fun _ => .requestError)).result.waits[0]? = some 1 ∧
    (1 : Nat) = 2 ^ (0 : Nat) :=
  ⟨(claim_c1_retry_budget_and_backoff "2+2?" none .missing (fun _ => .requestError)).1,
   by decide,
   (claim_c1_retry_budget_and_backoff "2+2?" none .missing (fun _ => .requestError)).2
     0 1 (by decide)⟩

/-- **C2 is false on the code.** An upstream HTTP 500 on attempt 0 — a
failure other than 429, with two attempts remaining — is *not* retried:
the run performs exactly one call, sleeps never, and returns the HTTP
apology immediately, contradicting the claim that every non-429 failure is
retried with exponential backoff while attempts remain. -/
theorem claim_c2_counterexample :
    (generate_response "p" none .missing (fun _ => .httpStatus 500)).result =
      ⟨.message httpErrorApology, 1, [], none⟩ ∧
    (1 : Nat) < max_retries := by
  constructor
  · rfl
  · decide

/-- **C2 (amended).** Upstream failures split into two classes, not one: an
HTTP status error other than 429 is terminal immediately (one call, no
wait, the HTTP apology), even with attempts remaining; a network/transport
error or a malformed/unexpected response shape with attempts remaining is
retried after the exponential wait `2 ^ attempt` exactly as the
rate-limited case is, and becomes terminal (generic apology) only once the
retry budget is exhausted. -/
theorem claim_c2_amended_failure_classes (prompt : String) (history : List Turn)
    (outcomes : Nat → AttemptOutcome) (remaining attempt code : Nat) (body : GeminiBody) :
    (outcomes attempt = .httpStatus code → code ≠ 429 →
      relayLoopAux prompt history outcomes (remaining + 1) attempt =
        ⟨.message httpErrorApology, 1, [], none⟩) ∧
    (outcomes attempt = .requestError → attempt < max_retries - 1 →
      relayLoopAux prompt history outcomes (remaining + 1) attempt =
        retryStep attempt (relayLoopAux prompt history outcomes remaining (attempt + 1))) ∧
    (outcomes attempt = .ok body → extractText body = none → attempt < max_retries - 1 →
      relayLoopAux prompt history outcomes (remaining + 1) attempt =
        retryStep attempt (relayLoopAux prompt history outcomes remaining (attempt + 1))) ∧
    (outcomes attempt = .requestError → ¬ attempt < max_retries - 1 →
      relayLoopAux prompt history outcomes (remaining + 1) attempt =
        ⟨.message unexpectedErrorApology, 1, [], none⟩) := by
  refine ⟨?_, ?_, ?_, ?_⟩
  · intro h hcode
    exact relayLoopAux_step_http_terminal prompt history outcomes remaining attempt code h
      (by simp [hcode])
  · intro h hc
    exact relayLoopAux_step_requestError_retry prompt history outcomes remaining attempt h hc
  · intro h he hc
    exact relayLoopAux_step_ok_none_retry prompt history outcomes remaining attempt body h he hc
  · intro h hc
    exact relayLoopAux_step_requestError_terminal prompt history outcomes remaining attempt h hc

/-- Witness for the amended C2: instantiates the first class at an HTTP 500
on attempt 0 and the second class at a transport error on attempt 0. -/
theorem claim_c2_amended_failure_classes_witness :
    relayLoopAux "p" [] (fun _ => .httpStatus 500) 3 0 =
      ⟨.message httpErrorApology, 1, [], none⟩ ∧
    relayLoopAux "p" [] (fun _ => .requestError) 3 0 =
      retryStep 0 (relayLoopAux "p" [] (fun _ => .requestError) 2 1) :=
  ⟨(claim_c2_amended_failure_classes "p" [] (fun _ => .httpStatus 500) 2 0 500
      ⟨[], []⟩).1 rfl (by decide),
   (claim_c2_amended_failure_classes "p" [] (fun _ => .requestError) 2 0 500
      ⟨[], []⟩).2.1 rfl (by decide)⟩

/-- **C3.** For every successful relay, the history handed to
`save_chat_history` is the pre-relay history with exactly two turns
appended, in order: the user's turn, then the model's turn. -/
theorem claim_c3_success_appends_user_then_model (prompt : String)
    (imageData : Option String) (store : ReadOutcome)
    (outcomes : Nat → AttemptOutcome) (t : Option String) :
    (generate_response prompt imageData store outcomes).result.reply = .answer t →
    (generate_response prompt imageData store outcomes).result.saved =
      some (get_chat_history store ++
        [⟨"user", [ContentPart.text (some prompt)]⟩, ⟨"model", [ContentPart.text t]⟩]) :=
  relayLoopAux_answer_saved prompt (get_chat_history store) outcomes max_retries 0 t

/-- Witness for C3: a first-attempt success on an empty history saves
exactly the user turn followed by the model turn. -/
theorem claim_c3_success_appends_user_then_model_witness :
    (generate_response "2+2?" none .missing
        (fun _ => .ok ⟨[⟨some ⟨[⟨some "4"⟩]⟩⟩], []⟩)).result.saved =
      some [⟨"user", [ContentPart.text (some "2+2?")]⟩,
            ⟨"model", [ContentPart.text (some "4")]⟩] :=
  claim_c3_success_appends_user_then_model "2+2?" none .missing
    (fun _ => .ok ⟨[⟨some ⟨[⟨some "4"⟩]⟩⟩], []⟩) (some "4") (by decide)

/-- **C4.** For every relay ending in a terminal upstream failure, nothing
is handed to `save_chat_history` (the user's turn is not recorded), the
stored history is left unchanged, and the user receives one of the two
fixed apology messages instead of an answer (`httpErrorApology` for the
HTTP-status path, `unexpectedErrorApology` for the generic path — the
spec's "fixed apology" refers to these per-class constants). -/
theorem claim_c4_terminal_failure_keeps_history (prompt : String)
    (imageData : Option String) (store : ReadOutcome) (prev : List Turn)
    (w : WriteOutcome) (outcomes : Nat → AttemptOutcome) (m : String) :
    (generate_response prompt imageData store outcomes).result.reply = .message m →
    (generate_response prompt imageData store outcomes).result.saved = none ∧
    (relayWithStore prompt imageData store prev w outcomes).2 = prev ∧
    (m = httpErrorApology ∨ m = unexpectedErrorApology) := by
  intro h
  obtain ⟨hs, hm⟩ :=
    relayLoopAux_message_saved prompt (get_chat_history store) outcomes max_retries 0 m h
  refine ⟨hs, ?_, hm⟩
  simp only [relayWithStore]
  rw [show (generate_response prompt imageData store outcomes).result.saved = none from hs]

/-- Witness for C4: three transport failures exhaust the budget; the store
keeps its previous contents and the reply is the generic apology. -/
theorem claim_c4_terminal_failure_keeps_history_witness :
    (generate_response "p" none .missing (fun _ => .requestError)).result.saved = none ∧
    (relayWithStore "p" none .missing [] .ok (fun _ => .requestError)).2 = [] ∧
    (unexpectedErrorApology = httpErrorApology ∨
      unexpectedErrorApology = unexpectedErrorApology) :=
  claim_c4_terminal_failure_keeps_history "p" none .missing [] .ok
    (fun _ => .requestError) unexpectedErrorApology (by decide)

/-- **C5 is false on the code.** A syntactically valid response with an
empty candidate list raises an `IndexError` that lands in the generic
`except Exception` handler, so it *is* retried: with such a response on
every attempt the run performs all 3 calls with waits 1 and 2 between them,
and it ends with the generic apology — there is no fixed "could not
generate" fallback anywhere in the code. -/
theorem claim_c5_counterexample :
    (generate_response "p" none .missing (fun _ => .ok ⟨[], []⟩)).result =
      ⟨.message unexpectedErrorApology, 3, [1, 2], none⟩ ∧
    (3 : Nat) ≠ 1 := by
  constructor
  · rfl
  · decide

/-- **C5 (amended).** A syntactically valid upstream response with no
usable candidate (empty candidate list or unexpected shape, i.e. the
extraction of lines 104–105 raises) is treated as a generic unexpected
error: it is retried with the exponential waits `2 ^ 0` and `2 ^ 1`, and
after the retry budget is exhausted the relay yields the fixed generic
apology `unexpectedErrorApology`, with nothing saved. -/
theorem claim_c5_amended_empty_result_retried (prompt : String)
    (imageData : Option String) (store : ReadOutcome) (body : GeminiBody)
    (he : extractText body = none) :
    (generate_response prompt imageData store (fun _ => .ok body)).result =
      ⟨.message unexpectedErrorApology, 3, [2 ^ 0, 2 ^ 1], none⟩ := by
  have e0 := relayLoopAux_step_ok_none_retry prompt (get_chat_history store)
    (fun _ => .ok body) 2 0 body rfl he (by decide)
  have e1 := relayLoopAux_step_ok_none_retry prompt (get_chat_history store)
    (fun _ => .ok body) 1 1 body rfl he (by decide)
  have e2 := relayLoopAux_step_ok_none_terminal prompt (get_chat_history store)
    (fun _ => .ok body) 0 2 body rfl he (by decide)
  show relayLoopAux prompt (get_chat_history store) (fun _ => .ok body) (2 + 1) 0 = _
  rw [e0]
  show retryStep 0 (relayLoopAux prompt (get_chat_history store)
    (fun _ => .ok body) (1 + 1) 1) = _
  rw [e1]
  show retryStep 0 (retryStep 1 (relayLoopAux prompt (get_chat_history store)
    (fun _ => .ok body) (0 + 1) 2)) = _
  rw [e2]
  rfl

/-- Witness for the amended C5 at the empty-candidates body. -/
theorem claim_c5_amended_empty_result_retried_witness :
    (generate_response "p" none .missing (fun _ => .ok ⟨[], []⟩)).result =
      ⟨.message unexpectedErrorApology, 3, [2 ^ 0, 2 ^ 1], none⟩ :=
  claim_c5_amended_empty_result_retried "p" none .missing ⟨[], []⟩ (by decide)

/-- **C6.** The sanitizer, on any input text: (i) every reserved markup
character in the output is immediately preceded by the escape marker `\`;
(ii) exactly one marker is inserted per reserved character occurrence (the
output length is the input length plus the number of reserved characters —
the formalization of "preceded by exactly one escape marker"); and (iii) it
is not idempotent: for every `x` containing a reserved character,
`sanitize (sanitize x) ≠ sanitize x`, so it must be applied exactly once
per outbound message. -/
theorem claim_c6_sanitizer_escaping_and_non_idempotence :
    (∀ s : String, ∀ i c, (escape_markdown_v2 s).toList[i]? = some c →
        c ∈ escape_chars.toList →
        i ≠ 0 ∧ (escape_markdown_v2 s).toList[i - 1]? = some '\\') ∧
    (∀ s : String, (escape_markdown_v2 s).toList.length =
        s.toList.length + (s.toList.filter (fun c => c ∈ escape_chars.toList)).length) ∧
    (∀ x : String, (∃ c ∈ x.toList, c ∈ escape_chars.toList) →
        escape_markdown_v2 (escape_markdown_v2 x) ≠ escape_markdown_v2 x) := by
  refine ⟨?_, ?_, ?_⟩
  · intro s i c h hc
    rw [escape_markdown_v2_toList] at h ⊢
    exact escapeList_preceded s.toList i c h hc
  · intro s
    rw [escape_markdown_v2_toList]
    exact escapeList_length s.toList
  · intro x hx heq
    obtain ⟨c, hcx, hcR⟩ := hx
    have hlists : escapeList (escapeList x.toList) = escapeList x.toList := by
      have := congrArg String.toList heq
      simpa [escape_markdown_v2_toList, escape_markdown_v2] using this
    exact escapeList_not_idempotent x.toList c hcx hcR hlists

/-- Witness for C6 at `x = "_"`: the escaped underscore follows one
backslash, and double sanitization differs from single sanitization. -/
theorem claim_c6_sanitizer_witness :
    ((1 : Nat) ≠ 0 ∧ (escape_markdown_v2 "_").toList[1 - 1]? = some '\\') ∧
    escape_markdown_v2 (escape_markdown_v2 "_") ≠ escape_markdown_v2 "_" :=
  ⟨claim_c6_sanitizer_escaping_and_non_idempotence.1 "_" 1 '_' (by decide) (by decide),
   claim_c6_sanitizer_escaping_and_non_idempotence.2.2 "_" ⟨'_', by decide, by decide⟩⟩

/-- **C7 is false on the code.** `generate_response` never reads grounding
metadata: on a successful response whose body carries a full `{title, url}`
attribution, the reply is exactly the bare candidate text, whereas the
spec-described formatting (`specAnswerWithSources`) would have produced a
different string with a trailing "Sources" block. No Sources block is ever
appended. -/
theorem claim_c7_counterexample :
    (generate_response "p" none .missing (fun _ => .ok citedBody)).result.reply =
      .answer (some "ans") ∧
    specCitationPairs citedBody.groundingAttributions = [("T", "U")] ∧
    specAnswerWithSources "ans" citedBody.groundingAttributions ≠ "ans" := by
  refine ⟨rfl, rfl, by decide⟩

/-- **C7 (amended).** The client ignores grounding/citation metadata: the
whole relay outcome is unchanged when every attribution is removed from the
response bodies, and a successful reply is exactly the extracted candidate
text with no Sources block appended. -/
theorem claim_c7_amended_grounding_ignored (prompt : String) (imageData : Option String)
    (store : ReadOutcome) (candidates : List Candidate) (attrs : List Attribution) :
    (generate_response prompt imageData store (fun _ => .ok ⟨candidates, attrs⟩) =
      generate_response prompt imageData store (fun _ => .ok ⟨candidates, []⟩)) ∧
    (∀ t, extractText ⟨candidates, attrs⟩ = some t →
      (generate_response prompt imageData store
          (fun _ => .ok ⟨candidates, attrs⟩)).result.reply = .answer t) := by
  constructor
  · rfl
  · intro t ht
    have step := relayLoopAux_step_ok_some prompt (get_chat_history store)
      (fun _ => .ok ⟨candidates, attrs⟩) 2 0 ⟨candidates, attrs⟩ t rfl ht
    show (relayLoopAux prompt (get_chat_history store)
      (fun _ => .ok ⟨candidates, attrs⟩) (2 + 1) 0).reply = _
    rw [step]

/-- Witness for the amended C7 at the concrete cited body. -/
theorem claim_c7_amended_grounding_ignored_witness :
    (generate_response "p" none .missing
        (fun _ => .ok ⟨[⟨some ⟨[⟨some "ans"⟩]⟩⟩], [⟨some "T", some "U"⟩]⟩)).result.reply =
      .answer (some "ans") :=
  (claim_c7_amended_grounding_ignored "p" none .missing
    [⟨some ⟨[⟨some "ans"⟩]⟩⟩] [⟨some "T", some "U"⟩]).2 (some "ans") (by decide)

/-- **C8** (settled against the spec-modelled session machine, §4.4, since
the component is absent from `src/`): from `Idle`, a mode-selection trigger
moves the owner's state to `AwaitingPrompt(P)` with an acknowledgment whose
action performs no upstream call; the owner's next text event while in
`AwaitingPrompt(P)` triggers the relay for purpose `P` on the consumed
prompt and returns the state to `Idle` regardless of the relay's verdict —
for both purposes, since `p` is universally quantified. -/
theorem claim_c8_session_transitions (p : Purpose) (s : String) (v v' : RelayVerdict) :
    sessionStep .idle (.select p) v = (.awaitingPrompt p, .ack) ∧
    actionCallsUpstream .ack = false ∧
    sessionStep (.awaitingPrompt p) (.textEvent s) v' = (.idle, .relayFor p s) := by
  refine ⟨rfl, rfl, ?_⟩
  cases v' <;> rfl

/-- **C9.** History persistence is best-effort and never fails the relay: a
read that errors and a read that finds no document both return the empty
sequence (never raising); a relay run from an errored read equals one run
from a missing document; the reply handed back is the same whatever the
write outcome; and a failed write leaves the store's previous contents in
place without affecting the computed reply. -/
theorem claim_c9_persistence_best_effort :
    get_chat_history .err = [] ∧
    get_chat_history .missing = [] ∧
    (∀ prompt imageData outcomes,
      generate_response prompt imageData .err outcomes =
        generate_response prompt imageData .missing outcomes) ∧
    (∀ prompt imageData store prev w outcomes,
      (relayWithStore prompt imageData store prev w outcomes).1 =
        (generate_response prompt imageData store outcomes).result.reply) ∧
    (∀ prompt imageData store prev outcomes,
      (relayWithStore prompt imageData store prev .err outcomes).2 = prev) := by
  refine ⟨rfl, rfl, fun _ _ _ => rfl, ?_, ?_⟩
  · intro prompt imageData store prev w outcomes
    simp only [relayWithStore]
    cases h : (generate_response prompt imageData store outcomes).result.saved <;> simp [h]
  · intro prompt imageData store prev outcomes
    simp only [relayWithStore]
    cases h : (generate_response prompt imageData store outcomes).result.saved <;>
      simp [h, save_chat_history]

/-- **C10.** With inline image data, the image part is attached only to the
ephemeral request payload: the payload's final user turn carries the text
prompt plus the inline-data part, while on success the history handed to
`save_chat_history` appends a user turn containing only the text prompt
(then the model turn) — inline media is never written to the history store,
so it is never replayed as prior context. -/
theorem claim_c10_inline_media_only_in_payload (prompt d : String)
    (store : ReadOutcome) (outcomes : Nat → AttemptOutcome) (t : Option String) :
    (generate_response prompt (some d) store outcomes).payload.contents =
      get_chat_history store ++
        [⟨"user", [ContentPart.text (some prompt),
                   ContentPart.inlineData "image/jpeg" d]⟩] ∧
    ((generate_response prompt (some d) store outcomes).result.reply = .answer t →
      (generate_response prompt (some d) store outcomes).result.saved =
        some (get_chat_history store ++
          [⟨"user", [ContentPart.text (some prompt)]⟩,
           ⟨"model", [ContentPart.text t]⟩])) := by
  constructor
  · show buildContents (get_chat_history store) prompt (some d) = _
    unfold buildContents
    simpa using addInlineToLast_append_singleton (get_chat_history store)
      ⟨"user", [ContentPart.text (some prompt)]⟩ d
  · exact relayLoopAux_answer_saved prompt (get_chat_history store) outcomes max_retries 0 t

/-- Witness for C10: a concrete image relay whose payload carries the
inline part and whose saved history does not. -/
theorem claim_c10_inline_media_only_in_payload_witness :
    (generate_response "p" (some "IMG") .missing
        (fun _ => .ok ⟨[⟨some ⟨[⟨some "4"⟩]⟩⟩], []⟩)).payload.contents =
      [⟨"user", [ContentPart.text (some "p"),
                 ContentPart.inlineData "image/jpeg" "IMG"]⟩] ∧
    (generate_response "p" (some "IMG") .missing
        (fun _ => .ok ⟨[⟨some ⟨[⟨some "4"⟩]⟩⟩], []⟩)).result.saved =
      some [⟨"user", [ContentPart.text (some "p")]⟩,
            ⟨"model", [ContentPart.text (some "4")]⟩] :=
  ⟨(claim_c10_inline_media_only_in_payload "p" "IMG" .missing
      (fun _ => .ok ⟨[⟨some ⟨[⟨some "4"⟩]⟩⟩], []⟩) (some "4")).1,
   (claim_c10_inline_media_only_in_payload "p" "IMG" .missing
      (fun _ => .ok ⟨[⟨some ⟨[⟨some "4"⟩]⟩⟩], []⟩) (some "4")).2 (by decide)⟩

end AIMath
